import Mathlib

/-!
Shallow embedding of the kmamal/testing test runner.

The primary source is `src/unnamed/part_002` (the `TestRunner` class); the
older executor `src/src/index.js` is embedded separately where its behaviour
differs (handler install/uninstall placement, `error = error || err` merging).
JS numbers appearing in the runner (times, counters, tolerances) are embedded
as `Int`; JS primitive values as `JSVal`; thrown values and the runner's
structured `Error` objects as `ErrVal`.
-/

set_option autoImplicit false

namespace Testing

/-- JS primitive values as they appear in the runner's data flow
(schedule step values, thrown values, option-object fields). -/
inductive JSVal : Type where
  | null
  | undefined
  | bool (b : Bool)
  | num (n : Int)
  | str (s : String)
  deriving DecidableEq

/-- JS truthiness of a `JSVal` (`if (value)`). -/
def truthy : JSVal → Bool
  | .null => false
  | .undefined => false
  | .bool b => b
  | .num n => n != 0
  | .str s => s != ""

/-- Property read `options.key` on a JS object literal, embedded as an
association list; an absent key reads as `undefined` (here `none`). -/
def jsLookup (options : List (String × JSVal)) (key : String) : Option JSVal :=
  (options.find? (fun p => p.1 == key)).map (fun p => p.2)

/-- JS `a || b` where `a` is a property read (absent reads as `undefined`,
which is falsy). -/
def jsOr (a : Option JSVal) (b : JSVal) : JSVal :=
  match a with
  | some v => if truthy v then v else b
  | none => b

/-- JS `ToNumber` on the values this runner actually compares numerically.
String coercion (which can yield `NaN`) is outside the modelled value domain:
the runner only ever reaches this after `jsOr` with a numeric default. -/
def toNumber : JSVal → Int
  | .num n => n
  | .bool true => 1
  | .bool false => 0
  | .null => 0
  | .undefined => 0
  | .str _ => 0

/-- Thrown values and the structured `Error` objects the runner constructs
(with their ad-hoc attached fields: `step`, `expected`, `actual`, `steps`). -/
inductive ErrVal : Type where
  /-- A thrown plain JS value, e.g. the `"NOT IMPLEMENTED"` string or a
  falsy value such as `0`. -/
  | val (v : JSVal)
  /-- A generic `Error` object identified by its message (assertion errors,
  background errors); `Error` objects are always truthy. -/
  | jsError (msg : String)
  /-- `new Error("no steps left")` with `err.step = [elapsed, ...x]`. -/
  | noStepsLeft (actual : Int × List JSVal)
  /-- `new Error("unexpected step")` with `expected = [time, ...value]`,
  `actual = [elapsed, ...x]`. -/
  | unexpectedStep (expected actual : Int × List JSVal)
  /-- `new Error("bad timing")` with the same two attached pairs. -/
  | badTiming (expected actual : Int × List JSVal)
  /-- `new Error("wrong number")` with `expected`/`actual` counts. -/
  | wrongNumber (expected actual : Int)
  /-- `new Error("missed steps")` with `err.steps = schedule`. -/
  | missedSteps (steps : List (Int × List JSVal))
  /-- The rejection produced when the timeout wins the race. -/
  | timedOut
  deriving DecidableEq

/-- Whether a thrown value is nullish (`null` or `undefined`), the only case
in which `error ??= err` leaves `error` unset. -/
def nullishErr : ErrVal → Bool
  | .val .null => true
  | .val .undefined => true
  | _ => false

/-- JS truthiness of a recorded error (`if (error)` in the drain loop);
`Error` objects are always truthy, plain thrown values by `truthy`. -/
def errTruthy : ErrVal → Bool
  | .val v => truthy v
  | _ => true

/-- Truthiness of the `error` slot, which may still be `null`. -/
def errTruthyO : Option ErrVal → Bool
  | none => false
  | some e => errTruthy e

/-- JS `error ??= err`: assign only when `error` is still nullish, and a
nullish `err` leaves it nullish. Used by `handleError` and the `catch` of
`runTest` in part_000/part_002. -/
def jsCoalesce (cur : Option ErrVal) (e : ErrVal) : Option ErrVal :=
  match cur with
  | some c => some c
  | none => if nullishErr e then none else some e

/-- JS `error = error || err`: the truthiness-based merging used by the older
executor `src/src/index.js`. -/
def jsOrE (cur : Option ErrVal) (e : ErrVal) : Option ErrVal :=
  match cur with
  | some c => if errTruthy c then some c else some e
  | none => some e

/-- `const tollerance = options.tollerance || 20` (part_002 line 56):
the effective tolerance is read from the misspelled `tollerance` key. -/
def tolleranceOf (options : List (String × JSVal)) : Int :=
  toNumber (jsOr (jsLookup options "tollerance") (.num 20))

/-- `const propagate = options.propagate || true` (part_002 line 57). -/
def propagateOf (options : List (String × JSVal)) : Bool :=
  truthy (jsOr (jsLookup options "propagate") (.bool true))

/-- One `step(...x)` call of the schedule closure (part_002 lines 61-88).
`now` stands for `Date.now()` at the call. Returns the remaining schedule
(the expected head is shifted off before the value/timing checks fire), the
updated anchor `startTime`, and the error thrown, if any. `isEqual` on the
modelled primitive value domain is structural equality. -/
def step (tollerance : Int) (propagate : Bool) (startTime : Int)
    (schedule : List (Int × List JSVal)) (now : Int) (x : List JSVal) :
    List (Int × List JSVal) × Int × Option ErrVal :=
  let elapsed := now - startTime
  match schedule with
  | [] => ([], startTime, some (.noStepsLeft (elapsed, x)))
  | (time, value) :: rest =>
    if value ≠ x then
      (rest, startTime, some (.unexpectedStep (time, value) (elapsed, x)))
    else
      let diff := elapsed - time
      if |diff| > tollerance then
        (rest, startTime, some (.badTiming (time, value) (elapsed, x)))
      else
        (rest, if propagate then startTime + diff else startTime, none)

mutual

/-- A test body, embedded as the observable interaction trace it performs
against the context object handed to it by `runTest`: a sequence of context
calls and background events, then either settlement (the list ends or a
throwing item rejects it) or, when `hangs`, no settlement at all (the
timeout wins the race). -/
inductive Body : Type where
  | mk (items : List BodyItem) (hangs : Bool)

/-- One observable action of a test body, in program order. -/
inductive BodyItem : Type where
  /-- `t.expect(n)` (part_002 lines 49-52). -/
  | expect (n : Int)
  /-- `t.timeout(ms)` (part_002 line 53). -/
  | setTimeout (ms : Int)
  /-- Any counted assertion call that passes (`ok(true)`, a succeeding
  `equal`, ...): its only effect is `countActual += 1`. -/
  | passAssert
  /-- Any counted assertion call that fails: `countActual += 1`, then the
  constructed error is thrown, rejecting the body. -/
  | failAssert (e : ErrVal)
  /-- `t.fail(info)`: throws without touching the counter. -/
  | failNoCount (e : ErrVal)
  /-- `t.schedule(steps, options)` (part_002 lines 55-89): copies the steps
  into the outer `schedule` binding and fixes `tollerance`/`propagate`. -/
  | newSchedule (steps : List (Int × List JSVal)) (options : List (String × JSVal))
  /-- `start()` of the schedule closure: records the anchor time. -/
  | schedStart (now : Int)
  /-- `step(...x)` of the schedule closure at wall-clock `now`. -/
  | schedStep (now : Int) (x : List JSVal)
  /-- `t.test(name, body)` (part_002 lines 188-190): registers a nested
  test; each registration is a `stack.unshift`. -/
  | nested (name : String) (body : Option Body)
  /-- The body throws / its promise rejects with `e` at this point. -/
  | thro (e : ErrVal)
  /-- A background error (unhandled rejection or uncaught exception) is
  delivered to the installed `handleError` hook at this point. -/
  | hook (e : ErrVal)

end

/-- Accessor for the action trace of a body. -/
def Body.items : Body → List BodyItem
  | .mk items _ => items

/-- Accessor for the hangs flag of a body. -/
def Body.hangs : Body → Bool
  | .mk _ hangs => hangs

/-- The per-execution mutable state of `runTest` (part_002 lines 29-36),
plus the queue registrations performed through the context's `test`. -/
structure TestState : Type where
  error : Option ErrVal := none
  duration : Int := 500
  countExpected : Option Int := none
  countActual : Int := 0
  schedule : Option (List (Int × List JSVal)) := none
  tollerance : Int := 20
  propagate : Bool := true
  startTime : Option Int := none
  regs : List (String × Option Body) := []

/-- The effect of one body action on the per-execution state: the updated
state, and the error this action throws (rejecting the body), if any. -/
def runItems1 : BodyItem → TestState → TestState × Option ErrVal
  | .expect n, st => ({ st with countExpected := some n, countActual := 0 }, none)
  | .setTimeout ms, st => ({ st with duration := ms }, none)
  | .passAssert, st => ({ st with countActual := st.countActual + 1 }, none)
  | .failAssert e, st => ({ st with countActual := st.countActual + 1 }, some e)
  | .failNoCount e, st => (st, some e)
  | .newSchedule steps options, st =>
      ({ st with
         schedule := some steps
         tollerance := tolleranceOf options
         propagate := propagateOf options }, none)
  | .schedStart now, st => ({ st with startTime := some now }, none)
  | .schedStep now x, st =>
      match st.schedule with
      | none => (st, none)  -- unreachable: the step closure exists only after schedule()
      | some sched =>
          match step st.tollerance st.propagate (st.startTime.getD 0) sched now x with
          | (sched2, anchor2, res) =>
              ({ st with schedule := some sched2, startTime := some anchor2 }, res)
  | .nested name body, st => ({ st with regs := st.regs ++ [(name, body)] }, none)
  | .thro e, st => (st, some e)
  | .hook e, st => ({ st with error := jsCoalesce st.error e }, none)

/-- Interpretation of a body's action trace against the per-execution state:
returns the state after the trace and the error the body threw / rejected
with, or `none` when it ran to completion. Items after a throwing item never
execute (a raise is a single control-flow exit of the body). -/
def runItems : List BodyItem → TestState → TestState × Option ErrVal
  | [], st => (st, none)
  | i :: rest, st =>
    match runItems1 i st with
    | (st1, none) => runItems rest st1
    | (st1, some e) => (st1, some e)

/-- Modelled from the spec: the `timeout` promise helper
(`@kmamal/util/promise/timeout`) is a dependency whose source is not part of
this repository; per spec §4.2 step 4 and the §7 `Timeout` taxonomy entry,
expiry of the race is reported as a distinguished timeout error rejecting
the `await`. -/
def timeoutError : ErrVal := .timedOut

/-- The post-settlement check on leftover declared schedule steps
(part_002 lines 207-211): `schedule && schedule.length > 0`. -/
def scheduleCheck (st : TestState) : Option ErrVal :=
  match st.schedule with
  | some r => if r.length > 0 then some (.missedSteps r) else none
  | none => none

/-- The post-settlement checks of `runTest` (part_002 lines 200-211), in
source order: the assertion-count check throws first, so the missed-steps
check is only reached when the count check passes. -/
def postChecks (st : TestState) : Option ErrVal :=
  match st.countExpected with
  | some n =>
      if st.countActual ≠ n then some (.wrongNumber n st.countActual)
      else scheduleCheck st
  | none => scheduleCheck st

/-- The outcome of one `runTest` call, extended with the runner-level side
effects the claims are about: the nested-test registrations pushed onto the
queue, and whether the process-wide capture handlers are still installed
when `runTest` returns. `shouldSortKeys` is a display-only hint consumed by
`Util.inspect` and is not modelled. -/
structure Outcome : Type where
  error : Option ErrVal
  regs : List (String × Option Body)
  handlersInstalled : Bool

/-- `TestRunner.runTest` from part_002 (lines 26-219): handlers are
installed before the `try`; an absent callback records `"NOT IMPLEMENTED"`
and throws it; otherwise the body runs, the `await` of the race either
returns (post-checks run) or throws (body rejection, or the timeout when the
body hangs), the `catch` merges with `error ??= err`, and the `finally`
uninstalls the handlers on every path. -/
def runTest (callback : Option Body) : Outcome :=
  match callback with
  | none =>
      { error := some (.val (.str "NOT IMPLEMENTED")), regs := [],
        handlersInstalled := false }
  | some b =>
      match runItems b.items {} with
      | (st, settle) =>
        let error :=
          match settle with
          | some e => jsCoalesce st.error e
          | none =>
              if b.hangs then jsCoalesce st.error timeoutError
              else
                match postChecks st with
                | some e => jsCoalesce st.error e
                | none => st.error
        { error := error, regs := st.regs, handlersInstalled := false }

/-- Outcome of the older executor, tracking its handler slot. -/
structure IdxOutcome : Type where
  error : Option ErrVal
  handlersInstalled : Bool

/-- `runTest` from the older executor `src/src/index.js` (lines 22-151),
embedded only as far as its handler lifecycle and error merging differ from
part_002: the two `process.on` calls sit inside `if (promise)` right before
the `await`, and the matching `process.off` calls are straight-line code
right after it — a rejecting race jumps to the `catch`, skipping them, so
the handlers stay installed when `runTest` returns. Merging uses
`error = error || err`. Bodies modelled here return a promise (the
`if (promise)` guard is taken); the interaction trace interpretation is
shared with the part_002 embedding. -/
def runTestIdx (callback : Option Body) : IdxOutcome :=
  match callback with
  | none =>
      { error := some (.val (.str "NOT IMPLEMENTED")), handlersInstalled := false }
  | some b =>
      match runItems b.items {} with
      | (st, settle) =>
        match settle with
        | some e => { error := jsOrE st.error e, handlersInstalled := true }
        | none =>
            if b.hangs then
              { error := jsOrE st.error timeoutError, handlersInstalled := true }
            else
              match postChecks st with
              | some e => { error := jsOrE st.error e, handlersInstalled := false }
              | none => { error := st.error, handlersInstalled := false }

/-- One entry of `this.stack` (part_002): a string opens a group, `null`
closes one, and an object is a runnable test. -/
inductive QueueItem : Type where
  | label (s : String)
  | groupEnd
  | test (name : String) (body : Option Body)

/-- One `console.log(...args)` line the drain loop emits for a test:
the test's name, and the inspected error when `if (error)` held. -/
structure ReportLine : Type where
  name : String
  errorShown : Option ErrVal

/-- `TestRunner.runTests` from part_002 (lines 221-253), fuel-indexed
because nested registrations grow the stack: drains the stack from the
head, forwards group markers, runs each test, applies its nested
registrations as `unshift`s (in call order, so the last registration ends
up at the head), and counts a failure exactly when the outcome's error is
truthy. Returns the per-test report lines, `countTests`, `countFailed`. -/
def runTests : Nat → List QueueItem → List ReportLine × Nat × Nat
  | 0, _ => ([], 0, 0)
  | _ + 1, [] => ([], 0, 0)
  | fuel + 1, item :: rest =>
    match item with
    | .label _ => runTests fuel rest
    | .groupEnd => runTests fuel rest
    | .test name body =>
        let r := runTest body
        let stack := r.regs.foldl (fun acc e => QueueItem.test e.1 e.2 :: acc) rest
        let later := runTests fuel stack
        let failed := errTruthyO r.error
        (⟨name, if failed then r.error else none⟩ :: later.1,
         later.2.1 + 1, later.2.2 + (if failed then 1 else 0))

/-- Body actions that neither throw nor touch the recorded `error` slot. -/
def quiet : BodyItem → Bool
  | .expect _ => true
  | .setTimeout _ => true
  | .passAssert => true
  | .newSchedule _ _ => true
  | .schedStart _ => true
  | .nested _ _ => true
  | _ => false

theorem runItems_cons (i : BodyItem) (rest : List BodyItem) (st : TestState) :
    runItems (i :: rest) st =
      match runItems1 i st with
      | (st1, none) => runItems rest st1
      | (st1, some e) => (st1, some e) := rfl

theorem runItems_append_none (xs ys : List BodyItem) (st st1 : TestState)
    (h : runItems xs st = (st1, none)) :
    runItems (xs ++ ys) st = runItems ys st1 := by
  induction xs generalizing st with
  | nil =>
    simp only [runItems, Prod.mk.injEq] at h
    rw [List.nil_append, h.1]
  | cons i rest ih =>
    rw [runItems_cons] at h
    rw [List.cons_append, runItems_cons]
    rcases h1 : runItems1 i st with ⟨sta, res⟩
    rw [h1] at h
    cases res with
    | none => exact ih sta h
    | some e => simp at h

theorem runItems_append_some (xs ys : List BodyItem) (st st1 : TestState) (e : ErrVal)
    (h : runItems xs st = (st1, some e)) :
    runItems (xs ++ ys) st = (st1, some e) := by
  induction xs generalizing st with
  | nil => simp [runItems] at h
  | cons i rest ih =>
    rw [runItems_cons] at h
    rw [List.cons_append, runItems_cons]
    rcases h1 : runItems1 i st with ⟨sta, res⟩
    rw [h1] at h
    cases res with
    | none => exact ih sta h
    | some e2 => exact h

theorem runItems1_quiet (i : BodyItem) (st : TestState) (h : quiet i = true) :
    (runItems1 i st).2 = none ∧ ((runItems1 i st).1).error = st.error := by
  cases i <;> simp [quiet] at h <;> simp [runItems1]

theorem runItems_quiet (xs : List BodyItem) (st : TestState)
    (h : ∀ i ∈ xs, quiet i = true) :
    (runItems xs st).2 = none ∧ ((runItems xs st).1).error = st.error := by
  induction xs generalizing st with
  | nil => exact ⟨rfl, rfl⟩
  | cons i rest ih =>
    have hi := runItems1_quiet i st (h i (by simp))
    have hr : ∀ j ∈ rest, quiet j = true := fun j hj => h j (by simp [hj])
    rw [runItems_cons]
    rcases h1 : runItems1 i st with ⟨sta, res⟩
    rw [h1] at hi
    cases res with
    | none =>
      have := ih sta hr
      exact ⟨this.1, this.2.trans hi.2⟩
    | some e => simp at hi

theorem runItems1_error_mono (i : BodyItem) (st : TestState) (c : ErrVal)
    (h : st.error = some c) : ((runItems1 i st).1).error = some c := by
  cases i with
  | schedStep now x =>
    simp only [runItems1]
    cases hs : st.schedule with
    | none => exact h
    | some sched =>
      rcases step st.tollerance st.propagate (st.startTime.getD 0) sched now x with
        ⟨s2, a2, r⟩
      simpa using h
  | _ => simp [runItems1, jsCoalesce, h]

theorem runItems_error_mono (xs : List BodyItem) (st : TestState) (c : ErrVal)
    (h : st.error = some c) : ((runItems xs st).1).error = some c := by
  induction xs generalizing st with
  | nil => exact h
  | cons i rest ih =>
    rw [runItems_cons]
    have h1 := runItems1_error_mono i st c h
    rcases he : runItems1 i st with ⟨st1, res⟩
    rw [he] at h1
    cases res with
    | none => exact ih st1 h1
    | some e => exact h1

theorem runTest_error_recorded (b : Body) (st : TestState) (res : Option ErrVal)
    (c : ErrVal) (h : runItems b.items {} = (st, res)) (he : st.error = some c) :
    (runTest (some b)).error = some c := by
  simp only [runTest, h]
  cases res with
  | some e => simp [jsCoalesce, he]
  | none =>
    by_cases hb : b.hangs
    · simp [hb, jsCoalesce, he]
    · cases hp : postChecks st <;> simp [hb, hp, jsCoalesce, he]

theorem runItems_replicate_pass (k : Nat) (st : TestState) :
    runItems (List.replicate k .passAssert) st =
      ({ st with countActual := st.countActual + k }, none) := by
  induction k generalizing st with
  | zero => simp [runItems]
  | succ k ih =>
    rw [List.replicate_succ, runItems_cons]
    show runItems (List.replicate k .passAssert)
      { st with countActual := st.countActual + 1 } = _
    rw [ih]
    have hc : st.countActual + 1 + (k : Int) = st.countActual + ((k + 1 : Nat) : Int) := by
      push_cast
      ring
    simp [hc]

/-- Claim C1: for every call to `schedule(steps, options)` the effective
propagate flag `options.propagate || true` computed from the options is
`true` — even when the caller explicitly passes `propagate: false` — so
every `step` call that passes the value and timing checks advances the
schedule's anchor `startTime` by `diff = elapsed - expectedTime`. -/
theorem propagate_always_advances_anchor
    (options : List (String × JSVal)) (tollerance startTime time now : Int)
    (value x : List JSVal) (rest : List (Int × List JSVal))
    (hv : value = x) (ht : |now - startTime - time| ≤ tollerance) :
    propagateOf options = true ∧
    step tollerance (propagateOf options) startTime ((time, value) :: rest) now x =
      (rest, startTime + (now - startTime - time), none) := by
  have hp : propagateOf options = true := by
    unfold propagateOf
    cases h : jsLookup options "propagate" with
    | none => rfl
    | some v =>
      simp only [jsOr]
      cases hv2 : truthy v with
      | true => simp [hv2]
      | false => simp [hv2, truthy]
  refine ⟨hp, ?_⟩
  rw [hp]
  subst hv
  simp [step, not_lt.mpr ht]

/-- Witness for C1 at an options object that explicitly passes
`propagate: false` and a step 10ms late within the 20ms tolerance. -/
theorem propagate_always_advances_anchor_witness :
    propagateOf [("propagate", JSVal.bool false)] = true ∧
    step 20 (propagateOf [("propagate", JSVal.bool false)]) 100
        [(50, [JSVal.num 1])] 160 [JSVal.num 1] = ([], 110, none) := by
  simpa using propagate_always_advances_anchor [("propagate", JSVal.bool false)]
    20 100 50 160 [JSVal.num 1] [JSVal.num 1] [] rfl (by decide)

/-- Claim C2 (counterexample): the claimed precedence (body's own
exception first, then the capture-hook error) fails: here a background
error is delivered to the installed hook while the async body is still
pending, and the body then rejects with its own error; `error ??= err`
records the hook error first, so the outcome carries the hook error, not
the body's own exception. -/
theorem error_precedence_counterexample :
    (runTest (some (.mk [.hook (.jsError "background"), .thro (.jsError "body")]
      false))).error = some (.jsError "background") ∧
    ErrVal.jsError "background" ≠ ErrVal.jsError "body" :=
  ⟨rfl, by decide⟩

/-- Claim C2 (amended): the outcome's error is merged first-non-null-wins
in order of arrival: a capture-hook error delivered while the body is
still pending is recorded before the body's own exception and wins over it
and over the post-checks; a body exception with nothing recorded before it
wins over the post-check errors; once any non-null error is recorded,
later errors from any source do not replace it. -/
theorem error_merge_arrival_order
    (pre post : List BodyItem) (e : ErrVal) (hangs : Bool)
    (hq : ∀ i ∈ pre, quiet i = true) (hn : nullishErr e = false) :
    (runTest (some (.mk (pre ++ .hook e :: post) hangs))).error = some e ∧
    (runTest (some (.mk (pre ++ [.thro e]) false))).error = some e := by
  rcases h0 : runItems pre {} with ⟨st0, r0⟩
  have hq2 := runItems_quiet pre {} hq
  rw [h0] at hq2
  simp only at hq2
  obtain ⟨hr0, herr0⟩ := hq2
  subst hr0
  constructor
  · have happ := runItems_append_none pre (.hook e :: post) {} st0 h0
    rw [runItems_cons] at happ
    simp only [runItems1] at happ
    have hset : ({ st0 with error := jsCoalesce st0.error e } : TestState).error
        = some e := by
      simp [jsCoalesce, herr0, hn]
    rcases hf : runItems post { st0 with error := jsCoalesce st0.error e } with ⟨stf, rf⟩
    have hmono := runItems_error_mono post _ e hset
    rw [hf] at hmono
    simp only at hmono
    rw [hf] at happ
    exact runTest_error_recorded (.mk (pre ++ .hook e :: post) hangs) stf rf e happ hmono
  · have happ := runItems_append_none pre [.thro e] {} st0 h0
    have hfull : runItems (pre ++ [.thro e]) {} = (st0, some e) := by
      rw [happ]; rfl
    simp only [runTest, Body.items, hfull]
    simp [jsCoalesce, herr0, hn]

/-- Witness for C2 amended: a passing assertion, then a background hook
error, then the body's own rejection; and the same with the body rejecting
directly. -/
theorem error_merge_arrival_order_witness :
    (runTest (some (.mk [.passAssert, .hook (.jsError "background"),
        .thro (.jsError "body")] false))).error = some (.jsError "background") ∧
    (runTest (some (.mk [.passAssert, .thro (.jsError "background")] false))).error
      = some (.jsError "background") :=
  error_merge_arrival_order [.passAssert] [.thro (.jsError "body")]
    (.jsError "background") false (by simp [quiet]) rfl

/-- Claim C3: a nested test registered mid-execution is prepended to the
head of the queue, never appended: with test A at the head and sibling B
queued behind it, A's body registering one nested test (whose own body
registers none) makes the drain execute A, then the nested test, then B. -/
theorem nested_test_runs_before_sibling
    (fuel : Nat) (a b n : String) (ba : Body) (bn bb : Option Body)
    (rest : List QueueItem)
    (ha : (runTest (some ba)).regs = [(n, bn)])
    (hnr : (runTest bn).regs = []) :
    ∃ s, (runTests (fuel + 3)
        (.test a (some ba) :: .test b bb :: rest)).1.map ReportLine.name
      = a :: n :: b :: s := by
  have e3 : fuel + 3 = fuel + 2 + 1 := rfl
  have e2 : fuel + 2 = fuel + 1 + 1 := rfl
  rw [e3]
  simp only [runTests, ha, hnr, List.foldl, e2, List.map]
  exact ⟨_, rfl⟩

/-- Witness for C3: test A registers nested test N; sibling B is queued
behind A; the drained order of names is A, N, B. -/
theorem nested_test_runs_before_sibling_witness :
    ∃ s, (runTests 3 [.test "A" (some (.mk [.nested "N" none] false)),
        .test "B" none]).1.map ReportLine.name = "A" :: "N" :: "B" :: s :=
  nested_test_runs_before_sibling 0 "A" "B" "N" (.mk [.nested "N" none] false)
    none none [] rfl rfl

/-- Claim C4 (code bug in src/src/index.js): the part_002 executor
uninstalls the capture handlers on every exit path (its `finally` runs on
success, thrown error, and timeout alike), but in the older executor
src/src/index.js a body whose awaited race rejects jumps to the `catch`
and skips the two straight-line `process.off` calls, so the handlers are
still installed when `runTest` returns and leak into the next queue
entry's execution. -/
theorem handler_uninstall_exit_paths (callback : Option Body)
    (items : List BodyItem) (e : ErrVal) :
    (runTest callback).handlersInstalled = false ∧
    (runTestIdx (some (.mk (items ++ [.thro e]) false))).handlersInstalled = true := by
  constructor
  · cases callback with
    | none => rfl
    | some b =>
      rcases h : runItems b.items {} with ⟨st, settle⟩
      simp [runTest, h]
  · rcases h : runItems items {} with ⟨st1, r1⟩
    cases r1 with
    | some e1 =>
      have happ := runItems_append_some items [.thro e] {} st1 e1 h
      simp [runTestIdx, Body.items, happ]
    | none =>
      have happ := runItems_append_none items [.thro e] {} st1 h
      have hfull : runItems (items ++ [.thro e]) {} = (st1, some e) := by
        rw [happ]; rfl
      simp [runTestIdx, Body.items, hfull]

/-- Claim C5: `step(...observed)` on a non-exhausted schedule consumes the
expected pair from the front and checks in this order: first deep equality
of the observed values ("unexpected step", carrying both the expected and
the actual pair), then the timing tolerance ("bad timing", carrying both
pairs), otherwise success; the effective tolerance of an empty options
object is the default 20. -/
theorem step_check_order
    (tollerance : Int) (propagate : Bool) (startTime time now : Int)
    (value x : List JSVal) (rest : List (Int × List JSVal)) :
    (value ≠ x →
      step tollerance propagate startTime ((time, value) :: rest) now x =
        (rest, startTime,
          some (.unexpectedStep (time, value) (now - startTime, x)))) ∧
    (value = x → |now - startTime - time| > tollerance →
      step tollerance propagate startTime ((time, value) :: rest) now x =
        (rest, startTime,
          some (.badTiming (time, value) (now - startTime, x)))) ∧
    (value = x → |now - startTime - time| ≤ tollerance →
      step tollerance propagate startTime ((time, value) :: rest) now x =
        (rest,
          (if propagate then startTime + (now - startTime - time) else startTime),
          none)) ∧
    tolleranceOf [] = 20 := by
  refine ⟨?_, ?_, ?_, rfl⟩
  · intro hne
    simp [step, hne]
  · intro he ht
    subst he
    simp [step, ht]
  · intro he ht
    subst he
    simp [step, not_lt.mpr ht]

/-- Witness for C5: wrong value beats wrong timing; right value with bad
timing fails on timing; right value in tolerance succeeds. -/
theorem step_check_order_witness :
    step 20 true 0 [((100 : Int), [JSVal.num 1])] 150 [JSVal.num 2]
      = ([], 0, some (.unexpectedStep (100, [JSVal.num 1]) (150, [JSVal.num 2]))) ∧
    step 20 true 0 [((100 : Int), [JSVal.num 1])] 150 [JSVal.num 1]
      = ([], 0, some (.badTiming (100, [JSVal.num 1]) (150, [JSVal.num 1]))) ∧
    step 20 true 0 [((100 : Int), [JSVal.num 1])] 110 [JSVal.num 1]
      = ([], 10, none) := by
  refine ⟨?_, ?_, ?_⟩
  · simpa using (step_check_order 20 true 0 100 150 [JSVal.num 1] [JSVal.num 2] []).1
      (by decide)
  · simpa using (step_check_order 20 true 0 100 150 [JSVal.num 1] [JSVal.num 1] []).2.1
      rfl (by decide)
  · simpa using (step_check_order 20 true 0 100 110 [JSVal.num 1] [JSVal.num 1] []).2.2.1
      rfl (by decide)

/-- Claim C6: calling `step` once all declared steps are consumed yields
the "no steps left" error carrying `[elapsed, ...observed]`; and a body
that settles normally with declared steps still unconsumed (nothing else
recorded, no `expect` declared) yields the "missed steps" outcome carrying
exactly the remaining unconsumed steps. -/
theorem schedule_exhaustion_and_missed_steps
    (tollerance : Int) (propagate : Bool) (startTime now : Int) (x : List JSVal)
    (items : List BodyItem) (st : TestState) (r : List (Int × List JSVal)) :
    step tollerance propagate startTime [] now x
      = ([], startTime, some (.noStepsLeft (now - startTime, x))) ∧
    (runItems items {} = (st, none) → st.error = none → st.countExpected = none →
      st.schedule = some r → r ≠ [] →
      (runTest (some (.mk items false))).error = some (.missedSteps r)) := by
  constructor
  · rfl
  · intro h he hc hs hr
    simp only [runTest, Body.items, Body.hangs, h]
    simp [postChecks, hc, scheduleCheck, hs, List.length_pos.mpr hr, jsCoalesce,
      he, nullishErr]

/-- Witness for C6: a stale `step` call on an exhausted schedule, and a
body that declares one step and never performs it. -/
theorem schedule_exhaustion_and_missed_steps_witness :
    step 20 true 0 [] 30 [JSVal.num 7]
      = ([], 0, some (.noStepsLeft (30, [JSVal.num 7]))) ∧
    (runTest (some (.mk [.newSchedule [((0 : Int), [JSVal.num 1])] []] false))).error
      = some (.missedSteps [((0 : Int), [JSVal.num 1])]) :=
  ⟨(schedule_exhaustion_and_missed_steps 20 true 0 30 [JSVal.num 7] [] {} []).1,
   (schedule_exhaustion_and_missed_steps 20 true 0 30 [JSVal.num 7]
      [.newSchedule [((0 : Int), [JSVal.num 1])] []]
      { schedule := some [((0 : Int), [JSVal.num 1])] } [((0 : Int), [JSVal.num 1])]).2
     rfl rfl rfl rfl (List.cons_ne_nil _ _)⟩

/-- Claim C7: `expect(n)` resets the actual counter to 0 at the point of
the call (earlier counted assertions are discarded); a body that settles
after exactly `n` further counted assertion calls yields no count-mismatch
error, while any other count `k` — in particular `n - 1` or `n + 1` —
yields the "wrong number" error with `expected = n` and the actual count
attached. -/
theorem expect_count_check (j k : Nat) (n : Int) :
    (((k : Int) = n) →
      (runTest (some (.mk (List.replicate j .passAssert ++
        .expect n :: List.replicate k .passAssert) false))).error = none) ∧
    (((k : Int) ≠ n) →
      (runTest (some (.mk (List.replicate j .passAssert ++
        .expect n :: List.replicate k .passAssert) false))).error
        = some (.wrongNumber n k)) := by
  have hfull : runItems (List.replicate j .passAssert ++
      .expect n :: List.replicate k .passAssert) {}
      = ({ countExpected := some n, countActual := (k : Int) }, none) := by
    rw [runItems_append_none _ _ _ _ (runItems_replicate_pass j {}), runItems_cons]
    simp only [runItems1]
    rw [runItems_replicate_pass]
    simp
  constructor
  · intro hk
    simp [runTest, Body.items, Body.hangs, hfull, postChecks, scheduleCheck, hk]
  · intro hk
    simp [runTest, Body.items, Body.hangs, hfull, postChecks, scheduleCheck, hk,
      jsCoalesce, nullishErr]

/-- Witness for C7: two discarded assertions before `expect(3)`, then
three assertions (passes) versus two assertions (wrong number, expected 3,
actual 2). -/
theorem expect_count_check_witness :
    (runTest (some (.mk (List.replicate 2 .passAssert ++
      .expect 3 :: List.replicate 3 .passAssert) false))).error = none ∧
    (runTest (some (.mk (List.replicate 2 .passAssert ++
      .expect 3 :: List.replicate 2 .passAssert) false))).error
      = some (.wrongNumber 3 2) :=
  ⟨(expect_count_check 2 3 3).1 (by decide),
   by simpa using (expect_count_check 2 2 3).2 (by decide)⟩

/-- Claim C8: a test entry whose body is absent produces the fixed
"NOT IMPLEMENTED" marker as its outcome error without invoking any body:
`runTest none` is a constant outcome, independent of any other state. -/
theorem missing_body_not_implemented :
    runTest none = { error := some (.val (.str "NOT IMPLEMENTED")), regs := [],
                     handlersInstalled := false } :=
  rfl

/-- Claim C9: a body that throws a falsy value (`0`, `false`, `""`, or
`null`) leaves that value in the outcome's error slot (`error ??= err`
records non-nullish falsy values and keeps `null` as-is), but the drain's
failure check `if (error)` is plain truthiness, so the test is reported
with no error output and `countFailed` is not incremented — it counts as
passed. -/
theorem falsy_error_counts_passed (name : String) (v : JSVal)
    (hf : truthy v = false) :
    ((v ≠ .null ∧ v ≠ .undefined) →
      (runTest (some (.mk [.thro (.val v)] false))).error = some (.val v)) ∧
    ((v = .null ∨ v = .undefined) →
      (runTest (some (.mk [.thro (.val v)] false))).error = none) ∧
    runTests 1 [.test name (some (.mk [.thro (.val v)] false))]
      = ([⟨name, none⟩], 1, 0) := by
  have hcore : errTruthyO (jsCoalesce none (.val v)) = false := by
    cases hnv : nullishErr (.val v) with
    | true => simp [jsCoalesce, hnv, errTruthyO]
    | false => simp [jsCoalesce, hnv, errTruthyO, errTruthy, hf]
  refine ⟨?_, ?_, ?_⟩
  · rintro ⟨h1, h2⟩
    show jsCoalesce none (.val v) = some (.val v)
    cases v <;> simp_all [jsCoalesce, nullishErr]
  · rintro (h1 | h1) <;> subst h1 <;> rfl
  · simp [runTests, runTest, runItems, runItems1, Body.items, hcore]

/-- Witness for C9 at the falsy thrown value `0`. -/
theorem falsy_error_counts_passed_witness :
    (runTest (some (.mk [.thro (.val (.num 0))] false))).error
      = some (.val (.num 0)) ∧
    runTests 1 [.test "t" (some (.mk [.thro (.val (.num 0))] false))]
      = ([⟨"t", none⟩], 1, 0) :=
  ⟨(falsy_error_counts_passed "t" (.num 0) rfl).1 (by decide),
   (falsy_error_counts_passed "t" (.num 0) rfl).2.2⟩

/-- Claim C10: the effective tolerance is `options.tollerance || 20`, read
from the misspelled `tollerance` key: a correctly spelled `tolerance`
entry has no effect on it (alone, the tolerance stays 20), and an explicit
`tollerance: 0` also yields 20 because `0` is falsy. -/
theorem tollerance_misspelled_key (options : List (String × JSVal)) (v : JSVal) :
    tolleranceOf (("tolerance", v) :: options) = tolleranceOf options ∧
    tolleranceOf [("tolerance", v)] = 20 ∧
    tolleranceOf [("tollerance", JSVal.num 0)] = 20 := by
  have hkey : (("tolerance" : String) == "tollerance") = false := by decide
  refine ⟨?_, ?_, rfl⟩
  · simp [tolleranceOf, jsLookup, List.find?_cons, hkey]
  · simp [tolleranceOf, jsLookup, List.find?_cons, hkey, jsOr, toNumber]

end Testing
